import Mathlib

/-!
# Verification of the `know-your-trees` single-tree training core

This file gives a shallow embedding of the tree-building and prediction core
of the repository (the `Tree` builder in `src/tree/mod.rs`, the `Logit`
scoring strategy in `src/tree/loss_fn/mod.rs`, and the vector-backed
`DataSet`/`Feature`/`Target` implementations in
`src/tree/split/vector_datasets.rs`), and proves or refutes the frozen
claims about it.

Modelling decisions:

* `f64` values are modelled by `F64`: an exact rational for finite values,
  plus `inf`, `neginf` and `nan`, with IEEE-754 special-value propagation
  for the operations the code performs (`+`, `-`, `*`, `/`, squaring,
  comparisons, `is_finite`).  Finite arithmetic is exact rather than
  rounded; every concrete scenario below only performs arithmetic that is
  exact in binary64 on the path that decides the result, so the model and
  the machine agree bit-for-bit there.  Negative zero is not modelled; no
  operation in scope produces it.
* Rust `panic!`/`.expect` is modelled as the `Failure.panicked` outcome,
  distinct from a returned `TreeError` (`Failure.treeErr`); the panic
  message interpolation of the offending error value is elided, keeping
  the fixed prefix only.
* `HashMap<String, Vec<F>>` is modelled as an association list
  `List (String × List F64)`.  The list order stands for the map's
  iteration order, which `std::collections::HashMap` (and the rayon
  `par_bridge`/`reduce` used by `find_best_split`) leaves unspecified:
  one logical map corresponds to many orders.
* The rayon `reduce` in `find_best_split` is modelled as a left fold over
  the candidate enumeration in that order, with the code's exact
  accumulator combination (identity `Err(NoSplitRequired)`).
* The builder recursion computes the child depth as
  `if score == 0 { 0 } else { max_depth - 1 }`; since the builder at
  depth `0` immediately returns `build_leaf`, the perfect-split case is
  inlined as directly building the two leaves, which is definitionally
  the same behaviour and keeps the recursion structural.
-/

set_option autoImplicit false

namespace KnowYourTrees

/-! ## IEEE-flavoured float model -/

/-- Model of Rust `f64`: exact rationals for finite values plus the special
values `inf`, `neginf` and `nan` (negative zero is not modelled). -/
inductive F64 where
  | fin (q : ℚ)
  | inf
  | neginf
  | nan
  deriving DecidableEq, Repr

namespace F64

/-- IEEE addition on the model (finite addition is exact). -/
def add : F64 → F64 → F64
  | nan, _ => nan
  | _, nan => nan
  | inf, neginf => nan
  | neginf, inf => nan
  | inf, _ => inf
  | _, inf => inf
  | neginf, _ => neginf
  | _, neginf => neginf
  | fin a, fin b => fin (a + b)

/-- IEEE negation on the model. -/
def neg : F64 → F64
  | fin a => fin (-a)
  | inf => neginf
  | neginf => inf
  | nan => nan

/-- IEEE subtraction on the model. -/
def sub (a b : F64) : F64 := a.add b.neg

/-- IEEE multiplication on the model (finite multiplication is exact). -/
def mul : F64 → F64 → F64
  | nan, _ => nan
  | _, nan => nan
  | fin a, fin b => fin (a * b)
  | inf, inf => inf
  | inf, neginf => neginf
  | neginf, inf => neginf
  | neginf, neginf => inf
  | inf, fin b => if 0 < b then inf else if b < 0 then neginf else nan
  | fin a, inf => if 0 < a then inf else if a < 0 then neginf else nan
  | neginf, fin b => if 0 < b then neginf else if b < 0 then inf else nan
  | fin a, neginf => if 0 < a then neginf else if a < 0 then inf else nan

/-- `x.powi(2)` as used by the code. -/
def sq (a : F64) : F64 := a.mul a

/-- IEEE division on the model: `0/0 = nan`, `x/0 = ±inf` for `x ≠ 0`,
`inf/inf = nan`, finite division exact. -/
def div : F64 → F64 → F64
  | nan, _ => nan
  | _, nan => nan
  | inf, inf => nan
  | inf, neginf => nan
  | neginf, inf => nan
  | neginf, neginf => nan
  | fin _, inf => fin 0
  | fin _, neginf => fin 0
  | inf, fin b => if 0 ≤ b then inf else neginf
  | neginf, fin b => if 0 ≤ b then neginf else inf
  | fin a, fin b =>
    if b = 0 then (if 0 < a then inf else if a < 0 then neginf else nan)
    else fin (a / b)

/-- IEEE `<` (false whenever `nan` is involved). -/
def lt : F64 → F64 → Bool
  | fin a, fin b => decide (a < b)
  | fin _, inf => true
  | neginf, fin _ => true
  | neginf, inf => true
  | _, _ => false

/-- IEEE `≤` (false whenever `nan` is involved). -/
def le : F64 → F64 → Bool
  | nan, _ => false
  | _, nan => false
  | neginf, _ => true
  | _, inf => true
  | inf, _ => false
  | fin a, fin b => decide (a ≤ b)
  | fin _, neginf => false

/-- IEEE `≥`. -/
def ge (a b : F64) : Bool := le b a

/-- IEEE `==` (`nan` is not equal to anything, itself included). -/
def beq : F64 → F64 → Bool
  | nan, _ => false
  | _, nan => false
  | fin a, fin b => decide (a = b)
  | inf, inf => true
  | neginf, neginf => true
  | _, _ => false

/-- Rust `PartialOrd::partial_cmp` on `f64`: `none` whenever `nan` is
involved. -/
def pcmp : F64 → F64 → Option Ordering
  | nan, _ => none
  | _, nan => none
  | fin a, fin b =>
    some (if a < b then Ordering.lt else if b < a then Ordering.gt else Ordering.eq)
  | inf, inf => some Ordering.eq
  | neginf, neginf => some Ordering.eq
  | inf, _ => some Ordering.gt
  | _, inf => some Ordering.lt
  | neginf, _ => some Ordering.lt
  | fin _, neginf => some Ordering.gt

/-- Rust `f64::is_finite`. -/
def isFinite : F64 → Bool
  | fin _ => true
  | _ => false

end F64

/-! ## `loss_fn/split_values.rs` -/

/-- `NullDirection` (`loss_fn/split_values.rs`): where rows with a missing
value at the split feature are routed. -/
inductive NullDirection where
  | left
  | right
  deriving DecidableEq, Repr

/-- `SplitScore` (`loss_fn/split_values.rs`): a numeric quality plus the
chosen missing-value direction; compared by `score` only. -/
structure SplitScore where
  score : F64
  null_direction : NullDirection
  deriving DecidableEq, Repr

/-- `SplitInfo` (`loss_fn/split_values.rs`): feature name, threshold and
score of a chosen split; compared by `score` only. -/
structure SplitInfo where
  name : String
  value : F64
  score : SplitScore
  deriving DecidableEq, Repr

/-- `SplitInfo::partial_cmp` delegates to `SplitScore::partial_cmp`, which
compares the raw `score` floats. -/
def SplitInfo.pcmp (a b : SplitInfo) : Option Ordering :=
  F64.pcmp a.score.score b.score.score

/-! ## `loss_fn/mod.rs` — the `Score<bool>` strategy interface and `Logit` -/

/-- The `Score<bool>` trait of `loss_fn/mod.rs`: a scoring strategy exposes
`split_score` (candidate evaluation over the target and a ternary mask) and
`pred` (leaf prediction over a target slice).  The tree builder and
split search are generic over this, mirroring `S: Score<T>` in the code. -/
structure Scorer where
  split_score : List Bool → List (Option Bool) → Option SplitScore
  pred : List Bool → F64

/-- `Logit` (`loss_fn/mod.rs`): the gradient/Hessian strategy, holding the
fixed working prediction. -/
structure Logit where
  pred : F64
  deriving DecidableEq, Repr

namespace Logit

/-- `Logit::new` (`loss_fn/mod.rs` lines 137-141): accepts only
`0 < pred < 1` under IEEE comparison (so `nan`, `±inf` and everything
outside the open interval are rejected); the Rust `panic!` on rejection is
modelled by `none`. -/
def new (p : F64) : Option Logit :=
  if F64.lt (.fin 0) p && F64.lt p (.fin 1) then some { pred := p } else none

/-- `Logit::grad_and_hes`: per-row gradient and Hessian of the logistic
loss at the fixed working prediction. -/
def grad_and_hes (l : Logit) (target : Bool) : F64 × F64 :=
  let target_val : F64 := if target then .fin 1 else .fin 0
  (l.pred.sub target_val, l.pred.mul ((F64.fin 1).sub l.pred))

/-- Accumulator of the six running sums in `Logit::split_score`. -/
structure Sums where
  l_g : F64
  l_h : F64
  r_g : F64
  r_h : F64
  n_g : F64
  n_h : F64

/-- `Logit::split_score` (`loss_fn/mod.rs` lines 152-191): accumulate
gradient/Hessian sums per mask side, compute the two missing-direction
gain candidates, keep the larger one negated (`Left` wins ties); if the
left candidate does not win and the right one is not finite, the candidate
split is not viable (`none`). -/
def split_score (l : Logit) (target : List Bool) (filter_mask : List (Option Bool)) :
    Option SplitScore :=
  let s : Sums := (target.zip filter_mask).foldl
    (fun s bm =>
      let gh := l.grad_and_hes bm.1
      match bm.2 with
      | some true => { s with l_g := s.l_g.add gh.1, l_h := s.l_h.add gh.2 }
      | some false => { s with r_g := s.r_g.add gh.1, r_h := s.r_h.add gh.2 }
      | none => { s with n_g := s.n_g.add gh.1, n_h := s.n_h.add gh.2 })
    ⟨.fin 0, .fin 0, .fin 0, .fin 0, .fin 0, .fin 0⟩
  let score_on_left := ((s.l_g.add s.n_g).sq.div (s.l_h.add s.n_h)).add (s.r_g.sq.div s.r_h)
  let score_on_right := ((s.r_g.add s.n_g).sq.div (s.r_h.add s.n_h)).add (s.l_g.sq.div s.l_h)
  if F64.ge score_on_left score_on_right then
    some { score := score_on_left.neg, null_direction := .left }
  else if score_on_right.isFinite then
    some { score := score_on_right.neg, null_direction := .right }
  else
    none

/-- `Logit::pred` the trait method (`loss_fn/mod.rs` lines 192-198): the
one-step Newton update `−(Σgrad)/(Σhess)` over the whole target slice. -/
def predLeaf (l : Logit) (target : List Bool) : F64 :=
  let gh := target.foldl
    (fun acc v =>
      let p := l.grad_and_hes v
      (acc.1.add p.1, acc.2.add p.2))
    (F64.fin 0, F64.fin 0)
  (gh.1.div gh.2).neg

/-- The `Score<bool>` instance of `Logit` packaged as a `Scorer`. -/
def scorer (l : Logit) : Scorer :=
  { split_score := l.split_score, pred := l.predLeaf }

end Logit

/-! ## `split/mod.rs` and `split/vector_datasets.rs` — errors, masks,
partitioning, the dataset, and the best-split search -/

/-- `DataSetRowsError` (`split/vector_datasets.rs` context in
`tree/mod.rs`): shape errors raised when computing row count or rows. -/
inductive DataSetRowsError where
  | emptyDF
  | illFormedColumn (name : String) (idx : Nat)
  deriving DecidableEq, Repr

/-- `BestSplitNotFound` (`split/mod.rs`): the reachable split-search
outcomes of the vector-dataset `find_best_split` — no viable candidate at
all, or two candidate scores that do not compare (NaN). -/
inductive BestSplitNotFound where
  | noSplitRequired
  | scoreNotComparable (s1 s2 : SplitInfo)
  deriving DecidableEq, Repr

/-- Whether a mask entry routes a row to the left partition
(`Splittable::split` for `Vec<T>`, lines 33-36): a decided mask entry is
followed, a missing entry follows the `NullDirection`. -/
def routeLeft (m : Option Bool) (null_direction : NullDirection) : Bool :=
  match m with
  | some b => b
  | none => null_direction = .left

/-- `Splittable::split` for `Vec<T>` (`split/vector_datasets.rs` lines
25-46): partition a vector by a ternary mask, preserving order, routing
missing entries by `null_direction`.  Like the Rust `zip`, a mask shorter
than the vector truncates. -/
def splitVec {α : Type} : List α → List (Option Bool) → NullDirection → List α × List α
  | [], _, _ => ([], [])
  | _ :: _, [], _ => ([], [])
  | x :: xs, m :: ms, nd =>
    let lr := splitVec xs ms nd
    if routeLeft m nd then (x :: lr.1, lr.2) else (lr.1, x :: lr.2)

/-- One entry of `Feature::mask` for `Vec<T>` (`split/vector_datasets.rs`
lines 52-59): `partial_cmp` against the threshold; `Less` maps to
`some true`, `Equal`/`Greater` to `some false`, an undefined comparison
(NaN) to `none`. -/
def maskEntry (v threshold : F64) : Option Bool :=
  match F64.pcmp v threshold with
  | some Ordering.lt => some true
  | some Ordering.eq => some false
  | some Ordering.gt => some false
  | none => none

/-- `Feature::mask` for `Vec<T>` (all values present). -/
def maskVec (col : List F64) (threshold : F64) : List (Option Bool) :=
  col.map (fun v => maskEntry v threshold)

/-- `Feature::mask` for `Vec<Option<T>>` (`split/vector_datasets.rs` lines
68-81): a missing entry masks to `none`, a present one as in `maskVec`. -/
def maskOpt (col : List (Option F64)) (threshold : F64) : List (Option Bool) :=
  col.map (fun v =>
    match v with
    | some v => maskEntry v threshold
    | none => none)

/-- `Feature::find_splits` for `Vec<T>`: every observed value is a
candidate threshold, in column order. -/
def find_splits (col : List F64) : List F64 := col

/-- The dataset model: `HashMap<String, Vec<F>>` as an association list.
The list order models the map's iteration order, which the `HashMap` (and
the parallel bridge in the split search) leaves unspecified — one logical
map corresponds to many orders. -/
abbrev DataSetM : Type := List (String × List F64)

/-- The candidate stream of `find_best_split` (`split/vector_datasets.rs`
lines 133-139): for every column in iteration order and every
`find_splits` value of that column, the `(name, threshold, mask)` triple. -/
def candidates (df : DataSetM) : List (String × F64 × List (Option Bool)) :=
  df.flatMap (fun nc => (find_splits nc.2).map (fun v => (nc.1, v, maskVec nc.2 v)))

/-- One step of the `find_best_split` reduction (`split/vector_datasets.rs`
lines 128-132 and 141-149): a non-viable candidate (`split_score` =
`None`) leaves the accumulator unchanged; a viable one replaces an error
accumulator, and otherwise is compared by `partial_cmp` on scores —
`Less`/`Equal` keeps the accumulator (first encountered wins ties),
`Greater` replaces it, an undefined comparison yields
`ScoreNotComparable`. -/
def bestSplitStep (target : List Bool) (s : Scorer)
    (acc : Except BestSplitNotFound SplitInfo) (cand : String × F64 × List (Option Bool)) :
    Except BestSplitNotFound SplitInfo :=
  match s.split_score target cand.2.2 with
  | none => acc
  | some sc =>
    let el : SplitInfo := { name := cand.1, value := cand.2.1, score := sc }
    match acc with
    | .error _ => .ok el
    | .ok a =>
      match a.pcmp el with
      | some Ordering.lt => .ok a
      | some Ordering.eq => .ok a
      | some Ordering.gt => .ok el
      | none => .error (.scoreNotComparable a el)

/-- `find_best_split` (`split/vector_datasets.rs` lines 123-150): reduce
the candidate stream with `bestSplitStep` starting from the identity
`Err(NoSplitRequired)`.  The rayon `par_iter`/`par_bridge` reduction is
modelled as a left fold over the enumeration order. -/
def find_best_split (df : DataSetM) (target : List Bool) (s : Scorer) :
    Except BestSplitNotFound SplitInfo :=
  (candidates df).foldl (bestSplitStep target s) (.error .noSplitRequired)

/-- The `Iterator::max` of the column lengths used by `num_rows`. -/
def maxLen (lens : List Nat) : Option Nat :=
  lens.foldl
    (fun acc n =>
      match acc with
      | none => some n
      | some m => some (Nat.max m n))
    none

/-- `num_rows` (`split/vector_datasets.rs` lines 151-157): the maximum
column length, or `EmptyDF` when there are no columns. -/
def num_rows (df : DataSetM) : Except DataSetRowsError Nat :=
  match maxLen (df.map (fun nc => nc.2.length)) with
  | some m => .ok m
  | none => .error .emptyDF

/-- One row of `rows` (`split/vector_datasets.rs` lines 158-175): the
`(name, value)` pairs of every column at index `idx`, in iteration order;
a column too short for `idx` raises `IllFormedColumn` (first such column
in iteration order wins, as the Rust `collect::<Result<_>>` stops there).
Values of a `Vec<F>` column are always present (`Some`). -/
def buildRow : DataSetM → Nat → Except DataSetRowsError (List (String × Option F64))
  | [], _ => .ok []
  | nc :: rest, idx =>
    match nc.2.get? idx with
    | some v => (buildRow rest idx).map (fun r => (nc.1, some v) :: r)
    | none => .error (.illFormedColumn nc.1 idx)

/-- `Splittable::split` for `HashMap<String, Vec<F>>`
(`split/vector_datasets.rs` lines 100-116): partition every column by the
same mask and direction, keeping names. -/
def splitDataSet (df : DataSetM) (mask : List (Option Bool)) (nd : NullDirection) :
    DataSetM × DataSetM :=
  (df.map (fun nc => (nc.1, (splitVec nc.2 mask nd).1)),
   df.map (fun nc => (nc.1, (splitVec nc.2 mask nd).2)))

/-! ## `tree/mod.rs` — the tree, its builder and its predictor -/

/-- `TreeError` (`tree/mod.rs` lines 12-20). -/
inductive TreeError where
  | dataSetRows (e : DataSetRowsError)
  | couldNotFindFeature (name : String)
  | noPredictionInLeaf
  deriving DecidableEq, Repr

/-- How a `fit`/`predict` call can abort: by returning a typed `TreeError`
to the caller, or by a Rust `panic!`/`.expect` (which unwinds and never
returns a value).  Keeping the two apart is what lets the error-handling
claims be settled. -/
inductive Failure where
  | treeErr (e : TreeError)
  | panicked (msg : String)
  deriving DecidableEq, Repr

/-- `TreeConfig` (`tree/mod.rs` lines 7-10). -/
structure TreeConfig where
  max_depth : Nat

/-- `Tree` (`tree/mod.rs` lines 22-28): the four optional fields of the
Rust struct, children boxed behind `Option`. -/
inductive Tree where
  | mk (split_info : Option SplitInfo) (left : Option Tree) (right : Option Tree)
      (prediction : Option F64)

/-- Field accessor mirroring `self.split_info`. -/
def Tree.splitInfoOf : Tree → Option SplitInfo
  | .mk si _ _ _ => si

/-- Field accessor mirroring `self.prediction`. -/
def Tree.predictionOf : Tree → Option F64
  | .mk _ _ _ p => p

/-- `Tree::build_leaf` (`tree/mod.rs` lines 40-48): a leaf whose
prediction is `scoring.pred` over the given target slice. -/
def Tree.build_leaf (target : List Bool) (split_function : Scorer) : Tree :=
  .mk none none none (some (split_function.pred target))

/-- `Tree::add_or_stop` (`tree/mod.rs` lines 49-66): keep a child that
already has a prediction; collapse an internal child whose split score is
IEEE-`!=` the parent's into a fresh leaf over the child's target slice;
keep an internal child whose score is IEEE-`==`; a child with neither
prediction nor split info also becomes a fresh leaf. -/
def Tree.add_or_stop (split_info : SplitInfo) (node : Tree) (target : List Bool)
    (score_fn : Scorer) : Tree :=
  match node with
  | .mk nsi l r p =>
    if p.isSome then .mk nsi l r p
    else
      match nsi with
      | some ns =>
        if F64.beq ns.score.score split_info.score.score then .mk nsi l r p
        else Tree.build_leaf target score_fn
      | none => Tree.build_leaf target score_fn

/-- The builder's recomputed mask (`tree/mod.rs` lines 81-93): for each
row, find the chosen feature's value and compare with `<` against the
threshold (`CouldNotFindFeature` if the row lacks it; entry `none` if the
value is missing).  Row-shape errors from `rows()` surface first. -/
def builderMaskEntry (df : DataSetM) (split_info : SplitInfo) (idx : Nat) :
    Except TreeError (Option Bool) :=
  match buildRow df idx with
  | .error e => .error (.dataSetRows e)
  | .ok row =>
    match row.find? (fun nv => split_info.name = nv.1) with
    | none => .error (.couldNotFindFeature split_info.name)
    | some (_, some v) => .ok (some (F64.lt v split_info.value))
    | some (_, none) => .ok none

/-- The full recomputed mask of the builder, one entry per row. -/
def builderMask (df : DataSetM) (split_info : SplitInfo) :
    Except TreeError (List (Option Bool)) :=
  match num_rows df with
  | .error e => .error (.dataSetRows e)
  | .ok n => (List.range n).mapM (builderMaskEntry df split_info)

/-- `Tree::build_tree_recursive` (`tree/mod.rs` lines 67-134).  Depth `0`
returns a leaf.  Otherwise the best split is searched: `NoSplitRequired`
is recovered into a leaf, while `ScoreNotComparable` hits the
`_ => panic!("Could not split data: …")` arm.  On a viable split the mask
is recomputed from `rows()`, dataset and target are partitioned, and the
children are built with depth `max_depth - 1` — except that a split whose
score is IEEE-`== 0.0` forces the children's depth to `0`; since depth `0`
builds `build_leaf` immediately, that case is inlined here as building the
two leaves directly (definitionally the same behaviour, keeping the
recursion structural).  Both children then pass through `add_or_stop`
against the parent's split. -/
def Tree.build_tree_recursive (df : DataSetM) (target : List Bool) :
    Nat → Scorer → Except Failure Tree
  | 0, split_function => .ok (Tree.build_leaf target split_function)
  | d + 1, split_function =>
    match find_best_split df target split_function with
    | .ok split_info =>
      match builderMask df split_info with
      | .error e => .error (.treeErr e)
      | .ok mask =>
        let dfs := splitDataSet df mask split_info.score.null_direction
        let tars := splitVec target mask split_info.score.null_direction
        let build_child : DataSetM → List Bool → Except Failure Tree :=
          fun cdf ct =>
            if F64.beq split_info.score.score (.fin 0) then
              .ok (Tree.build_leaf ct split_function)
            else
              Tree.build_tree_recursive cdf ct d split_function
        match build_child dfs.1 tars.1 with
        | .error e => .error e
        | .ok left_tree =>
          match build_child dfs.2 tars.2 with
          | .error e => .error e
          | .ok right_tree =>
            .ok (.mk (some split_info)
              (some (Tree.add_or_stop split_info left_tree tars.1 split_function))
              (some (Tree.add_or_stop split_info right_tree tars.2 split_function))
              none)
    | .error .noSplitRequired => .ok (Tree.build_leaf target split_function)
    | .error (.scoreNotComparable _ _) => .error (.panicked "Could not split data")

/-- `Tree::fit` (`tree/mod.rs` lines 31-39). -/
def Tree.fit (samples : DataSetM) (target : List Bool) (tree_config : TreeConfig)
    (score_fn : Scorer) : Except Failure Tree :=
  Tree.build_tree_recursive samples target tree_config.max_depth score_fn

/-- `Tree::predict_single_value` (`tree/mod.rs` lines 135-164): traverse
from the root; at a node with split info and both children, look up the
split feature in the row — absence is a Rust `.expect` panic, a present
value routes by `<` against the threshold, a missing value routes by the
recorded `NullDirection`; at any other node return the prediction or
`NoPredictionInLeaf`. -/
def Tree.predict_single_value : Tree → List (String × Option F64) → Except Failure F64
  | .mk (some split_info) (some l) (some r) _, sample =>
    match sample.find? (fun nv => split_info.name = nv.1) with
    | none => .error (.panicked ("Feature " ++ split_info.name ++ " not in dataset"))
    | some (_, some v) =>
      if F64.lt v split_info.value then l.predict_single_value sample
      else r.predict_single_value sample
    | some (_, none) =>
      match split_info.score.null_direction with
      | .left => l.predict_single_value sample
      | .right => r.predict_single_value sample
  | .mk _ _ _ p, _ =>
    match p with
    | some v => .ok v
    | none => .error (.treeErr .noPredictionInLeaf)

/-- `Tree::predict` (`tree/mod.rs` lines 165-170): predict every row of
the dataset; row-shape errors surface as `TreeError`. -/
def Tree.predict (t : Tree) (samples : DataSetM) : Except Failure (List F64) :=
  match num_rows samples with
  | .error e => .error (.treeErr (.dataSetRows e))
  | .ok n =>
    (List.range n).mapM (fun idx =>
      match buildRow samples idx with
      | .error e => .error (.treeErr (.dataSetRows e))
      | .ok row => t.predict_single_value row)

/-! ## Concrete inputs used by the claims -/

/-- The gradient/Hessian strategy at working prediction `0.5`
(`Logit::new(0.5)`). -/
def logitHalf : Scorer := (Logit.mk (.fin (1/2))).scorer

/-- The single-feature dataset `F1 = [1, 2, 3]` of the end-to-end
scenarios. -/
def dfC1 : DataSetM := [("F1", [.fin 1, .fin 2, .fin 3])]

/-- The boolean target `[true, false, false]` of the end-to-end
scenarios. -/
def tarC1 : List Bool := [true, false, false]

/-- The tree the code actually fits in scenario `dfC1`/`tarC1` with the
`Logit(0.5)` strategy at depth 2: root split on `F1 < 2` with score `−3`
and null direction `Left`, leaves `2.0` and `−2.0`. -/
def treeC1 : Tree :=
  .mk (some ⟨"F1", .fin 2, ⟨.fin (-3), .left⟩⟩)
    (some (.mk none none none (some (.fin 2))))
    (some (.mk none none none (some (.fin (-2)))))
    none

/-- A `Score<bool>` instance whose scores are all `NaN`: any two viable
candidates are then incomparable, driving `find_best_split` into
`ScoreNotComparable`.  (`Score` is an open trait in the code, so this is a
legal input of the generic `fit`.) -/
def nanScorer : Scorer :=
  { split_score := fun _ _ => some ⟨.nan, .left⟩, pred := fun _ => .fin 0 }

/-- A `Score<bool>` instance giving every candidate the same comparable
score, exposing the tie-break of the cross-feature search. -/
def constScorer : Scorer :=
  { split_score := fun _ _ => some ⟨.fin 1, .left⟩, pred := fun _ => .fin 0 }

/-- The two-column map `{A ↦ [1], B ↦ [1]}` in one iteration order … -/
def dfAB : DataSetM := [("A", [.fin 1]), ("B", [.fin 1])]

/-- … and the same map in the other iteration order. -/
def dfBA : DataSetM := [("B", [.fin 1]), ("A", [.fin 1])]

/-- The root `SplitInfo` of a fitted tree, or `none` if the fit failed or
produced a leaf. -/
def rootSplitInfo (r : Except Failure Tree) : Option SplitInfo :=
  match r with
  | .ok t => t.splitInfoOf
  | .error _ => none

/-! ## Claims -/

/-- **C1** (counterexample).  On `F1 = [1,2,3]`, target
`[true,false,false]`, `Logit(0.5)`, `max_depth = 2`, the fitted root
split's score is `−3`, not `−8/3` as the claim states (the repository's
own test `test_with_logit` also asserts `−3`): the code maximises the raw
gain `(Σg_L)²/Σh_L + (Σg_R)²/Σh_R = 1 + 2 = 3` and stores its negation,
without subtracting the parent gain `(Σg)²/Σh = 1/3` that would give
`−8/3`. -/
theorem C1_root_score_is_minus_three_not_minus_eight_thirds :
    (rootSplitInfo (Tree.fit dfC1 tarC1 ⟨2⟩ logitHalf)).map (fun si => si.score.score)
        = some (.fin (-3))
      ∧ F64.fin (-3) ≠ F64.fin (-8/3) := by
  constructor
  · with_unfolding_all rfl
  · simp only [ne_eq, F64.fin.injEq]
    norm_num

/-- **C1** (amended).  Same scenario: the fitted tree has root split on
feature `F1`, threshold `2`, score `−3` (null direction `Left`), left
leaf prediction `2.0` and right leaf prediction `−2.0`.  (The right leaf
arises from `add_or_stop` collapsing an internal child of score `−2`.) -/
theorem C1_logit_fit_tree :
    Tree.fit dfC1 tarC1 ⟨2⟩ logitHalf = .ok treeC1 := by
  with_unfolding_all rfl

/-- **C6**.  For every dataset, target and scoring strategy, `fit` with
`max_depth = 0` immediately returns a single leaf whose prediction is
`scoring.pred` of the entire unpartitioned target (`tree/mod.rs` lines
73-75 and 40-48). -/
theorem C6_depth_zero_single_leaf (df : DataSetM) (target : List Bool) (s : Scorer) :
    Tree.fit df target ⟨0⟩ s = .ok (.mk none none none (some (s.pred target))) :=
  rfl

/-- **C3** (counterexample).  `fit` on the empty dataset (zero columns)
does not fail with `EmptyDF`: the split search returns the recoverable
`NoSplitRequired` (the candidate stream is empty), so the builder returns
a single leaf over the target — here prediction `2.0` for `Logit(0.5)`
over `[true]`.  `rows()`/`num_rows` (the only sources of `EmptyDF`) are
never called on this path. -/
theorem C3_empty_dataset_fits_a_leaf :
    Tree.fit [] [true] ⟨1⟩ logitHalf = .ok (.mk none none none (some (.fin 2))) := by
  with_unfolding_all rfl

/-- **C3** (amended).  For every target, depth and scoring strategy, `fit`
on a zero-column dataset returns a single leaf over the full target
(`NoSplitRequired` recovery); the `EmptyDF` shape error is what
`num_rows` returns on that dataset, but `fit` never reaches it. -/
theorem C3_empty_dataset_behaviour :
    (∀ (target : List Bool) (d : Nat) (s : Scorer),
        Tree.fit [] target ⟨d⟩ s = .ok (Tree.build_leaf target s))
      ∧ num_rows [] = .error .emptyDF := by
  refine ⟨fun target d s => ?_, rfl⟩
  cases d with
  | zero => rfl
  | succ d => rfl

/-- **C10**.  `Logit::new(p)` (`loss_fn/mod.rs` lines 137-141) rejects —
in the code, panics; modelled as `none` — every working prediction with
`p ≤ 0`, `p ≥ 1`, `p = NaN` or `p = ±inf`, and for `0 < p < 1` returns
normally, storing `p` unchanged. -/
theorem C10_logit_new_domain :
    (∀ q : ℚ, q ≤ 0 → Logit.new (.fin q) = none)
      ∧ (∀ q : ℚ, 1 ≤ q → Logit.new (.fin q) = none)
      ∧ (∀ q : ℚ, 0 < q → q < 1 → Logit.new (.fin q) = some { pred := .fin q })
      ∧ Logit.new .nan = none
      ∧ Logit.new .inf = none
      ∧ Logit.new .neginf = none := by
  refine ⟨fun q hq => ?_, fun q hq => ?_, fun q h0 h1 => ?_, rfl, rfl, rfl⟩
  · simp [Logit.new, F64.lt, not_lt.mpr hq]
  · simp [Logit.new, F64.lt, not_lt.mpr hq]
  · simp [Logit.new, F64.lt, h0, h1]

/-- **C10** (witness).  Concrete instances: `p = 1/2` is accepted and
stored unchanged; `p = −1` and `p = 2` are rejected. -/
theorem C10_logit_new_domain_witness :
    Logit.new (.fin (1/2)) = some { pred := .fin (1/2) }
      ∧ Logit.new (.fin (-1)) = none
      ∧ Logit.new (.fin 2) = none :=
  ⟨C10_logit_new_domain.2.2.1 (1/2) (by norm_num) (by norm_num),
   C10_logit_new_domain.1 (-1) (by norm_num),
   C10_logit_new_domain.2.1 2 (by norm_num)⟩

/-- **C2** (counterexample).  A dataset with two candidate thresholds and
a strategy whose scores are `NaN` makes `find_best_split` fail with
`ScoreNotComparable`; the builder then hits the
`_ => panic!("Could not split data: …")` arm of `build_tree_recursive`
(`tree/mod.rs` lines 129/131) — it panics instead of returning the error:
`TreeError` has no variant that could even carry it, so the claimed
"returns that error to its caller as a fit failure" is impossible.  No
tree is produced and no tie-break occurs, but the abort is a panic, not a
returned error. -/
theorem C2_score_not_comparable_panics_concretely :
    find_best_split [("A", [.fin 1, .fin 2])] [true] nanScorer
        = .error (.scoreNotComparable ⟨"A", .fin 1, ⟨.nan, .left⟩⟩ ⟨"A", .fin 2, ⟨.nan, .left⟩⟩)
      ∧ Tree.fit [("A", [.fin 1, .fin 2])] [true] ⟨1⟩ nanScorer
        = .error (.panicked "Could not split data") := by
  exact ⟨by with_unfolding_all rfl, by with_unfolding_all rfl⟩

/-- **C2** (amended).  For every dataset, target, scoring strategy and
`max_depth ≥ 1`: when the best-split search fails with
`ScoreNotComparable`, building aborts with a panic (process abort) — not
with a returned typed error — and no tree is produced; the error is never
resolved by an arbitrary tie-break. -/
theorem C2_score_not_comparable_aborts (df : DataSetM) (target : List Bool)
    (s : Scorer) (d : Nat) (s1 s2 : SplitInfo)
    (h : find_best_split df target s = .error (.scoreNotComparable s1 s2)) :
    Tree.build_tree_recursive df target (d + 1) s = .error (.panicked "Could not split data") := by
  simp only [Tree.build_tree_recursive, h]

/-- **C2** (witness). -/
theorem C2_score_not_comparable_aborts_witness :
    find_best_split [("A", [.fin 1, .fin 2])] [true] nanScorer
        = .error (.scoreNotComparable ⟨"A", .fin 1, ⟨.nan, .left⟩⟩ ⟨"A", .fin 2, ⟨.nan, .left⟩⟩)
      ∧ Tree.build_tree_recursive [("A", [.fin 1, .fin 2])] [true] 1 nanScorer
        = .error (.panicked "Could not split data") :=
  ⟨by with_unfolding_all rfl,
   C2_score_not_comparable_aborts [("A", [.fin 1, .fin 2])] [true] nanScorer 0
     ⟨"A", .fin 1, ⟨.nan, .left⟩⟩ ⟨"A", .fin 2, ⟨.nan, .left⟩⟩
     (by with_unfolding_all rfl)⟩

/-- **C4** (counterexample).  Predicting a row that lacks the root's
split feature (`F1`) against the scenario-2 tree: `predict` panics via
the `.expect` in `predict_single_value` (`tree/mod.rs` line 147) — the
typed `CouldNotFindFeature` error is never returned by prediction (it is
only ever constructed inside `fit`'s mask building, line 86). -/
theorem C4_missing_feature_panics_concretely :
    Tree.predict treeC1 [("G", [.fin 1])]
      = .error (.panicked "Feature F1 not in dataset") := by
  with_unfolding_all rfl

/-- **C4** (amended).  For every internal node and every row lacking its
split feature, `predict_single_value` aborts that prediction with a panic
(the `.expect`), substituting no default — but it panics rather than
surfacing the typed `CouldNotFindFeature` error. -/
theorem C4_missing_feature_panics (si : SplitInfo) (l r : Tree) (p : Option F64)
    (sample : List (String × Option F64))
    (h : sample.find? (fun nv => si.name = nv.1) = none) :
    Tree.predict_single_value (.mk (some si) (some l) (some r) p) sample
      = .error (.panicked ("Feature " ++ si.name ++ " not in dataset")) := by
  simp only [Tree.predict_single_value, h]

/-- **C4** (witness). -/
theorem C4_missing_feature_panics_witness :
    ([(("G" : String), some (F64.fin 1))].find?
        (fun nv => (SplitInfo.mk "F1" (.fin 2) ⟨.fin (-3), .left⟩).name = nv.1) = none)
      ∧ Tree.predict_single_value
          (.mk (some ⟨"F1", .fin 2, ⟨.fin (-3), .left⟩⟩)
            (some (.mk none none none (some (.fin 2))))
            (some (.mk none none none (some (.fin (-2))))) none)
          [("G", some (.fin 1))]
        = .error (.panicked "Feature F1 not in dataset") :=
  ⟨by with_unfolding_all rfl,
   C4_missing_feature_panics ⟨"F1", .fin 2, ⟨.fin (-3), .left⟩⟩
     (.mk none none none (some (.fin 2))) (.mk none none none (some (.fin (-2)))) none
     [("G", some (.fin 1))] (by with_unfolding_all rfl)⟩

/-- **C7**.  `add_or_stop` (`tree/mod.rs` lines 49-66), applied by the
builder to both freshly built children (lines 111-113): a child that
already has a prediction (a leaf) is kept unchanged; an internal child
whose split score is IEEE-unequal to the parent's is discarded for a
fresh `build_leaf` over the child's target slice; an internal child with
IEEE-equal score is kept unchanged. -/
theorem C7_add_or_stop_collapse :
    (∀ (si : SplitInfo) (t : List Bool) (s : Scorer) (nsi : Option SplitInfo)
        (l r : Option Tree) (p : F64),
        Tree.add_or_stop si (.mk nsi l r (some p)) t s = .mk nsi l r (some p))
      ∧ (∀ (si : SplitInfo) (t : List Bool) (s : Scorer) (ns : SplitInfo)
          (l r : Option Tree),
          F64.beq ns.score.score si.score.score = false →
          Tree.add_or_stop si (.mk (some ns) l r none) t s = Tree.build_leaf t s)
      ∧ (∀ (si : SplitInfo) (t : List Bool) (s : Scorer) (ns : SplitInfo)
          (l r : Option Tree),
          F64.beq ns.score.score si.score.score = true →
          Tree.add_or_stop si (.mk (some ns) l r none) t s = .mk (some ns) l r none) := by
  refine ⟨fun si t s nsi l r p => ?_, fun si t s ns l r h => ?_, fun si t s ns l r h => ?_⟩
  · simp [Tree.add_or_stop]
  · simp [Tree.add_or_stop, h]
  · simp [Tree.add_or_stop, h]

/-- **C7** (witness).  A leaf child is kept; an internal child of score
`−2` under a parent of score `−3` is collapsed to a fresh leaf; an
internal child of score `−3` under the same parent is kept. -/
theorem C7_add_or_stop_collapse_witness :
    Tree.add_or_stop ⟨"F1", .fin 2, ⟨.fin (-3), .left⟩⟩
        (.mk none none none (some (.fin 5))) [true] logitHalf
        = .mk none none none (some (.fin 5))
      ∧ F64.beq (F64.fin (-2)) (F64.fin (-3)) = false
      ∧ Tree.add_or_stop ⟨"F1", .fin 2, ⟨.fin (-3), .left⟩⟩
          (.mk (some ⟨"F1", .fin 3, ⟨.fin (-2), .left⟩⟩) none none none) [true] logitHalf
          = Tree.build_leaf [true] logitHalf
      ∧ F64.beq (F64.fin (-3)) (F64.fin (-3)) = true
      ∧ Tree.add_or_stop ⟨"F1", .fin 2, ⟨.fin (-3), .left⟩⟩
          (.mk (some ⟨"F1", .fin 3, ⟨.fin (-3), .left⟩⟩) none none none) [true] logitHalf
          = .mk (some ⟨"F1", .fin 3, ⟨.fin (-3), .left⟩⟩) none none none :=
  ⟨C7_add_or_stop_collapse.1 ⟨"F1", .fin 2, ⟨.fin (-3), .left⟩⟩ [true] logitHalf none none none
     (.fin 5),
   by with_unfolding_all rfl,
   C7_add_or_stop_collapse.2.1 ⟨"F1", .fin 2, ⟨.fin (-3), .left⟩⟩ [true] logitHalf
     ⟨"F1", .fin 3, ⟨.fin (-2), .left⟩⟩ none none (by with_unfolding_all rfl),
   by with_unfolding_all rfl,
   C7_add_or_stop_collapse.2.2 ⟨"F1", .fin 2, ⟨.fin (-3), .left⟩⟩ [true] logitHalf
     ⟨"F1", .fin 3, ⟨.fin (-3), .left⟩⟩ none none (by with_unfolding_all rfl)⟩

/-- `partial_cmp` of a non-`nan` value with itself is `Equal`. -/
theorem F64.pcmp_self (x : F64) (h : x ≠ .nan) : F64.pcmp x x = some Ordering.eq := by
  cases x with
  | fin q => simp [F64.pcmp, lt_irrefl]
  | inf => rfl
  | neginf => rfl
  | nan => exact absurd rfl h

/-- **C5** (counterexample).  `find_best_split` iterates a
`HashMap<String, Vec<F>>` via rayon's `par_iter`/`par_bridge` and reduces
in whatever order the scheduler produces; neither is a function of the
logical map.  The association-list order of `DataSetM` models exactly
that enumeration order.  For the single logical map `{A ↦ [1], B ↦ [1]}`
(the two lists below are permutations of each other) and a strategy
scoring every candidate equally, the two possible enumeration orders
produce trees rooted at different features — so tie-breaking is "first
encountered" in an order the code does **not** fix, and repeated `fit`
calls on identical logical inputs are not guaranteed structurally
identical trees. -/
theorem C5_tie_break_depends_on_enumeration_order :
    dfAB.Perm dfBA
      ∧ (rootSplitInfo (Tree.fit dfAB [true] ⟨1⟩ constScorer)).map (fun si => si.name)
        = some "A"
      ∧ (rootSplitInfo (Tree.fit dfBA [true] ⟨1⟩ constScorer)).map (fun si => si.name)
        = some "B"
      ∧ ("A" : String) ≠ "B" := by
  refine ⟨?_, by with_unfolding_all rfl, by with_unfolding_all rfl, by decide⟩
  exact List.Perm.swap _ _ _

/-- **C5** (amended).  Relative to a fixed candidate enumeration order,
the reduction of `find_best_split` is deterministic and resolves ties
among equal scores to the first candidate encountered: with two
single-value columns and a strategy that gives every candidate the same
comparable score, the first column of the enumeration wins.  (Cross-call
determinism of `fit` holds only when the `HashMap`/parallel enumeration
happens to present the same order.) -/
theorem C5_tie_break_first_encountered (n1 n2 : String) (v1 v2 : F64) (t : List Bool)
    (s : Scorer) (sc : SplitScore)
    (hs : ∀ m, s.split_score t m = some sc)
    (hc : F64.pcmp sc.score sc.score = some Ordering.eq) :
    find_best_split [(n1, [v1]), (n2, [v2])] t s = .ok ⟨n1, v1, sc⟩ := by
  simp [find_best_split, candidates, find_splits, bestSplitStep, SplitInfo.pcmp, hs, hc]

/-- **C5** (witness). -/
theorem C5_tie_break_first_encountered_witness :
    (∀ m, constScorer.split_score [true] m = some ⟨.fin 1, .left⟩)
      ∧ F64.pcmp (F64.fin 1) (F64.fin 1) = some Ordering.eq
      ∧ find_best_split [("A", [.fin 1]), ("B", [.fin 1])] [true] constScorer
        = .ok ⟨"A", .fin 1, ⟨.fin 1, .left⟩⟩ :=
  ⟨fun _ => rfl, by with_unfolding_all rfl,
   C5_tie_break_first_encountered "A" "B" (.fin 1) (.fin 1) [true] constScorer
     ⟨.fin 1, .left⟩ (fun _ => rfl) (by with_unfolding_all rfl)⟩

/-- **C8** (counterexample).  A `NaN` value is *present* in a `Vec<f64>`
column (that column type has no missing entries at all), yet both `mask`
implementations send it — and any comparison against a `NaN` threshold —
to `None`, because `partial_cmp` is undefined on `NaN`.  So "`None`
exactly when the value is missing at that row" is false. -/
theorem C8_nan_masks_to_none :
    maskVec [F64.nan] (.fin 1) = [none]
      ∧ maskOpt [some F64.nan] (.fin 1) = [none]
      ∧ maskVec [.fin 1] F64.nan = [none] :=
  ⟨rfl, rfl, rfl⟩

/-- A `mask` entry over two finite (non-`NaN`) values is `Some(v < t)`. -/
theorem maskEntry_fin (q r : ℚ) : maskEntry (.fin q) (.fin r) = some (decide (q < r)) := by
  by_cases h : q < r
  · simp [maskEntry, F64.pcmp, h]
  · by_cases h2 : r < q
    · simp [maskEntry, F64.pcmp, h, h2]
    · simp [maskEntry, F64.pcmp, h, h2]

/-- **C8** (amended).  For both `mask` implementations
(`split/vector_datasets.rs` lines 52-59 and 68-81): a missing entry masks
to `None`; a present finite value `v` against a finite threshold `t`
masks to `Some(true)` exactly when `v < t` and `Some(false)` exactly when
`v ≥ t`; but a present `NaN` (an undefined comparison) also masks to
`None`, not only missing values. -/
theorem C8_mask_semantics :
    (∀ (col : List (Option F64)) (th : F64) (i : Nat),
        col.get? i = some none → (maskOpt col th).get? i = some none)
      ∧ (∀ (col : List (Option F64)) (q r : ℚ) (i : Nat),
          col.get? i = some (some (.fin q)) →
          (maskOpt col (.fin r)).get? i = some (some (decide (q < r))))
      ∧ (∀ (col : List F64) (q r : ℚ) (i : Nat),
          col.get? i = some (.fin q) →
          (maskVec col (.fin r)).get? i = some (some (decide (q < r))))
      ∧ (∀ (col : List (Option F64)) (th : F64) (i : Nat),
          col.get? i = some (some .nan) → (maskOpt col th).get? i = some none) := by
  refine ⟨fun col th i h => ?_, fun col q r i h => ?_, fun col q r i h => ?_,
    fun col th i h => ?_⟩ <;> rw [List.get?_eq_getElem?] at h
  · simp [maskOpt, List.get?_eq_getElem?, List.getElem?_map, h]
  · simp [maskOpt, List.get?_eq_getElem?, List.getElem?_map, h, maskEntry_fin]
  · simp [maskVec, List.get?_eq_getElem?, List.getElem?_map, h, maskEntry_fin]
  · simp [maskOpt, List.get?_eq_getElem?, List.getElem?_map, h, maskEntry, F64.pcmp]

/-- **C8** (witness). -/
theorem C8_mask_semantics_witness :
    ([some (F64.fin 1), none].get? 1 = some none
        ∧ (maskOpt [some (F64.fin 1), none] (.fin 2)).get? 1 = some none)
      ∧ ([some (F64.fin 1), none].get? 0 = some (some (.fin 1))
        ∧ (maskOpt [some (F64.fin 1), none] (.fin 2)).get? 0 = some (some true)) :=
  ⟨⟨rfl, C8_mask_semantics.1 [some (F64.fin 1), none] (.fin 2) 1 rfl⟩,
   ⟨rfl, by
      have h := C8_mask_semantics.2.1 [some (F64.fin 1), none] 1 2 0 rfl
      simpa using h⟩⟩

/-- The number of mask positions routed left (decided `Some(true)` plus
missing entries when the null direction is `Left`). -/
def countLeft (mask : List (Option Bool)) (nd : NullDirection) : Nat :=
  (mask.filter (fun m => routeLeft m nd)).length

/-- Lengths of the two `splitVec` halves under a row-aligned mask. -/
theorem splitVec_lengths {α : Type} :
    ∀ (v : List α) (mask : List (Option Bool)) (nd : NullDirection),
    mask.length = v.length →
    (splitVec v mask nd).1.length = countLeft mask nd
      ∧ (splitVec v mask nd).2.length = mask.length - countLeft mask nd
  | [], mask, nd, h => by
    have : mask = [] := List.eq_nil_of_length_eq_zero h
    subst this
    simp [splitVec, countLeft]
  | x :: xs, [], nd, h => by simp at h
  | x :: xs, m :: ms, nd, h => by
    have hlen : ms.length = xs.length := by simpa using h
    have ih := splitVec_lengths xs ms nd hlen
    have hle2 : (ms.filter (fun m => routeLeft m nd)).length ≤ ms.length :=
      List.length_filter_le _ _
    by_cases hm : routeLeft m nd
    · simp [splitVec, hm, countLeft, List.filter_cons, ih.1, ih.2]
    · simp [splitVec, hm, countLeft, List.filter_cons, ih.1, ih.2]
      omega

/-- Folding the `Iterator::max` step over a constant list from `some k`
stays at `some k`. -/
theorem maxLen_go_const (l : List Nat) (k : Nat) (h : ∀ x ∈ l, x = k) :
    l.foldl
        (fun acc n =>
          match acc with
          | none => some n
          | some m => some (Nat.max m n))
        (some k)
      = some k := by
  induction l with
  | nil => rfl
  | cons a l ih =>
    have ha : a = k := h a (List.mem_cons_self a l)
    subst ha
    simpa [Nat.max_self] using ih (fun x hx => h x (List.mem_cons_of_mem _ hx))

/-- `Iterator::max` of a nonempty constant list. -/
theorem maxLen_const (lens : List Nat) (k : Nat) (hne : lens ≠ [])
    (h : ∀ x ∈ lens, x = k) : maxLen lens = some k := by
  cases lens with
  | nil => exact absurd rfl hne
  | cons a l =>
    have ha : a = k := h a (List.mem_cons_self a l)
    subst ha
    simpa [maxLen] using maxLen_go_const l a (fun x hx => h x (List.mem_cons_of_mem _ hx))

/-- **C9**.  Row conservation of `split`: under a row-aligned mask every
row is routed to exactly one half, so the two halves' lengths sum to the
original length — for any vector (`Splittable` for `Vec<T>`, covering
both columns and the `Target`), and at dataset level (`Splittable` for
`HashMap<String, Vec<F>>`) the `num_rows` of the two halves sum to the
original `num_rows`. -/
theorem C9_split_row_conservation :
    (∀ (α : Type) (v : List α) (mask : List (Option Bool)) (nd : NullDirection),
        mask.length = v.length →
        (splitVec v mask nd).1.length + (splitVec v mask nd).2.length = v.length)
      ∧ (∀ (df : DataSetM) (mask : List (Option Bool)) (nd : NullDirection),
          df ≠ [] → (∀ nc ∈ df, (nc : String × List F64).2.length = mask.length) →
          num_rows (splitDataSet df mask nd).1 = .ok (countLeft mask nd)
            ∧ num_rows (splitDataSet df mask nd).2
              = .ok (mask.length - countLeft mask nd)
            ∧ countLeft mask nd + (mask.length - countLeft mask nd) = mask.length
            ∧ num_rows df = .ok mask.length) := by
  constructor
  · intro α v mask nd h
    have hl := splitVec_lengths v mask nd h
    have hle : countLeft mask nd ≤ mask.length := List.length_filter_le _ _
    omega
  · intro df mask nd hne hcols
    have hle : countLeft mask nd ≤ mask.length := List.length_filter_le _ _
    have hmapne : ∀ {β : Type} (f : String × List F64 → β), df.map f ≠ [] := by
      intro β f hnil
      exact hne (List.map_eq_nil_iff.mp hnil)
    refine ⟨?_, ?_, by omega, ?_⟩
    · show num_rows (df.map fun nc => (nc.1, (splitVec nc.2 mask nd).1)) = _
      unfold num_rows
      rw [List.map_map, maxLen_const _ (countLeft mask nd) (hmapne _) ?_]
      intro x hx
      simp only [List.mem_map, Function.comp] at hx
      obtain ⟨nc, hnc, rfl⟩ := hx
      exact (splitVec_lengths nc.2 mask nd (hcols nc hnc).symm).1
    · show num_rows (df.map fun nc => (nc.1, (splitVec nc.2 mask nd).2)) = _
      unfold num_rows
      rw [List.map_map, maxLen_const _ (mask.length - countLeft mask nd) (hmapne _) ?_]
      intro x hx
      simp only [List.mem_map, Function.comp] at hx
      obtain ⟨nc, hnc, rfl⟩ := hx
      exact (splitVec_lengths nc.2 mask nd (hcols nc hnc).symm).2
    · unfold num_rows
      rw [maxLen_const _ mask.length (hmapne _) ?_]
      intro x hx
      simp only [List.mem_map] at hx
      obtain ⟨nc, hnc, rfl⟩ := hx
      exact hcols nc hnc

/-- **C9** (witness).  A three-row vector and the scenario dataset under
the mask `[Some(true), Some(false), Some(false)]`. -/
theorem C9_split_row_conservation_witness :
    (splitVec ["a", "b", "c"] [some true, some false, some false] .left).1.length
        + (splitVec ["a", "b", "c"] [some true, some false, some false] .left).2.length = 3
      ∧ num_rows (splitDataSet dfC1 [some true, some false, some false] .left).1 = .ok 1
      ∧ num_rows (splitDataSet dfC1 [some true, some false, some false] .left).2 = .ok 2
      ∧ num_rows dfC1 = .ok 3 := by
  have h2 := C9_split_row_conservation.2 dfC1 [some true, some false, some false] .left
    (by simp [dfC1]) (by intro nc hnc; simp [dfC1] at hnc; subst hnc; rfl)
  refine ⟨C9_split_row_conservation.1 String ["a", "b", "c"]
      [some true, some false, some false] .left rfl,
    ?_, ?_, ?_⟩
  · exact h2.1
  · exact h2.2.1
  · exact h2.2.2.2

end KnowYourTrees
